import Mathlib

set_option linter.unusedVariables false

/- Shallow embedding of dyskt/rdoctl.py: the Tuner thread and the
   RadioController process, with the setup helpers the claims refer to.
   Line numbers in comments refer to src/dyskt/rdoctl.py. -/

deriving instance DecidableEq for Except

/-- Channel specification: a pair of channel number and width string, as in
    the scan lists of rdoctl.py. -/
abbrev ChanSpec := Nat × String

-- tuner states, lines 28-33
def TUNE_DESC : List String := ["scan", "hold", "pause", "listen", "stop"]

def TUNE_SCAN : Nat := 0

def TUNE_HOLD : Nat := 1

def TUNE_PAUSE : Nat := 2

def TUNE_LISTEN : Nat := 3

def TUNE_STOP : Nat := 4

/-- Payload slot of a status event: the Python code puts strings, channel
    lists and exception objects in that slot. -/
inductive Payload where
  | str (s : String)
  | chans (l : List ChanSpec)
  | err (e : String)
deriving DecidableEq

/-- Status event as put on the queue from the Tuner to the RadioController:
    in the source a tuple of tag, timestamp and a pair of command id and
    payload. -/
structure Event where
  tag : String
  ts : Int
  cid : Int
  payload : Payload
deriving DecidableEq

/-- Numeric value of a decimal digit character. -/
def digitVal (c : Char) : Nat := c.toNat - 48

/-- Parse a nonempty all-digit character list as a natural number. -/
def parseNatDigits (cs : List Char) : Option Nat :=
  if cs = [] then none
  else if cs.all Char.isDigit then
    some (cs.foldl (fun a c => a * 10 + digitVal c) 0)
  else none

/-- Model of Python int on the strings occurring here: an optional sign
    followed by decimal digits; anything else raises ValueError (none). -/
def pyToInt (s : String) : Option Int :=
  match s.data with
  | '-' :: rest => (parseNatDigits rest).map (fun n => -(n : Int))
  | '+' :: rest => (parseNatDigits rest).map (fun n => (n : Int))
  | cs => (parseNatDigits cs).map (fun n => (n : Int))

/-- Fuel-driven split of a character list at every occurrence of a nonempty
    separator substring, as Python str.split does with an explicit
    separator; every call site passes the length of the input as fuel,
    which always suffices. -/
def splitOnSub (sep : List Char) : Nat → List Char → List (List Char)
  | _, [] => [[]]
  | 0, s => [s]
  | fuel + 1, a :: rest =>
    if !sep.isEmpty && sep.isPrefixOf (a :: rest) then
      [] :: splitOnSub sep fuel ((a :: rest).drop sep.length)
    else
      match splitOnSub sep fuel rest with
      | [] => [[a]]
      | g :: gs => (a :: g) :: gs

/-- Model of Python str.split with an explicit separator. -/
def pySplit (sep s : String) : List String :=
  (splitOnSub sep.data s.data.length s.data).map (fun l => String.mk l)

/-- Model of Python list.index on channel tuples: index of the first
    occurrence, none when absent (where Python raises ValueError). -/
def pyIndex (v : ChanSpec) : List ChanSpec → Option Nat
  | [] => none
  | t :: rest => if t = v then some 0 else (pyIndex v rest).map (· + 1)

/-- Model of Python max on a list of integers (meaningful on nonempty
    lists, the only way the source calls it). -/
def pyMax (l : List Int) : Int := l.foldl max (l.headD 0)

/-- Mutable state of the Tuner thread: scan list, dwell list, current
    index, control state, the remaining-time counter of Tuner.run, and the
    stop event that only shutdown sets. Lines 47-57 and 76. -/
structure TunerState where
  chs : List ChanSpec
  ds : List Int
  i : Nat
  state : Nat
  remaining : Int
  done : Bool
deriving DecidableEq

/-- Result of one iteration of the Tuner.run loop body: updated state, the
    status events put on the queue to the RadioController, whether the body
    ended blocking on conn.poll with no timeout, and the chset calls issued
    to the NIC facade as pairs of channel and width. -/
structure TunerOut where
  st : TunerState
  events : List Event
  blocks : Bool
  calls : List (String × String)
deriving DecidableEq

/-- The current channel string of the Tuner, line 60. -/
def currch (st : TunerState) : String :=
  let t := st.chs.getD st.i (0, "")
  toString t.1 ++ ":" ++ t.2

/-- Parse a control token: split at colons, forced into exactly three
    components with an integer command id; none models the exception path
    of lines 96-99. -/
def splitToken (tkn : String) : Option (String × Int × String) :=
  match pySplit ":" tkn with
  | [cmd, cids, ps] =>
    match pyToInt cids with
    | some cid => some (cmd, cid, ps)
    | none => none
  | _ => none

/-- Startup emission of Tuner.run, lines 64-70: a paused start emits a
    PAUSE status whose payload is a single space and blocks on the control
    connection; otherwise a SCAN status carrying the scan list is emitted.
    Returns the emitted events and whether the thread blocks. -/
def tunerInit (st : TunerState) (ts : Int) : List Event × Bool :=
  if st.state = TUNE_PAUSE then ([⟨"!PAUSE!", ts, -1, .str " "⟩], true)
  else ([⟨"!SCAN!", ts, -1, .chans st.chs⟩], false)

/-- Dwell chosen at the top of each loop iteration, line 79: the dwell of
    the current slot unless a nonzero remaining time must be finished. -/
def nextDwell (st : TunerState) : Int :=
  if st.remaining = 0 then st.ds.getD st.i 0 else st.remaining

/-- One iteration of the body of the Tuner.run while loop, lines 79-159.
    The facade argument gives the outcome of iw.chset on the vnic for a
    channel and width; tok is the token received on the control connection,
    none when the poll timed out; ts is the timestamp taken after the poll
    and elapsed is ts minus the mark time ts1. -/
def tunerStep (facade : String → String → Except String Unit)
    (st : TunerState) (ts elapsed : Int) (tok : Option String) : TunerOut :=
  match tok with
  | some tkn =>
    if tkn = "!STOP!" then
      -- line 89: put the STOP status; note there is no break, the loop
      -- condition is re-checked afterwards
      { st := st, events := [⟨"!STOP!", ts, -1, .str " "⟩],
        blocks := false, calls := [] }
    else
      -- line 92: time remaining for this channel
      let st1 : TunerState := { st with remaining := st.ds.getD st.i 0 - elapsed }
      match splitToken tkn with
      | none =>
        { st := st1, events := [⟨"!ERR!", ts, -1, .str "invalid command format"⟩],
          blocks := false, calls := [] }
      | some (cmd, cid, ps) =>
        if cmd = "state" then
          { st := st1,
            events := [⟨"!STATE!", ts, cid, .str (TUNE_DESC.getD st1.state "")⟩],
            blocks := false, calls := [] }
        else if cmd = "scan" then
          if st1.state ≠ TUNE_SCAN then
            { st := { st1 with state := TUNE_SCAN },
              events := [⟨"!SCAN!", ts, cid, .chans st1.chs⟩],
              blocks := false, calls := [] }
          else
            { st := st1, events := [⟨"!ERR!", ts, cid, .str "redundant command"⟩],
              blocks := false, calls := [] }
        else if cmd = "txpwr" then
          { st := st1, events := [], blocks := false, calls := [] }
        else if cmd = "spoof" then
          { st := st1, events := [], blocks := false, calls := [] }
        else if cmd = "hold" then
          if st1.state ≠ TUNE_HOLD then
            { st := { st1 with state := TUNE_HOLD },
              events := [⟨"!HOLD!", ts, cid, .str (currch st1)⟩],
              blocks := true, calls := [] }
          else
            { st := st1, events := [⟨"!ERR!", ts, cid, .str "redundant command"⟩],
              blocks := false, calls := [] }
        else if cmd = "pause" then
          if st1.state ≠ TUNE_PAUSE then
            { st := { st1 with state := TUNE_PAUSE },
              events := [⟨"!PAUSE!", ts, cid, .str " "⟩],
              blocks := true, calls := [] }
          else
            { st := st1, events := [⟨"!ERR!", ts, cid, .str "redundant command"⟩],
              blocks := false, calls := [] }
        else if cmd = "listen" then
          match pySplit "-" ps with
          | [ch, chw] =>
            match facade ch chw with
            | .ok _ =>
              { st := { st1 with state := TUNE_LISTEN },
                events := [⟨"!LISTEN", ts, cid, .str (ch ++ ":" ++ chw)⟩],
                blocks := true, calls := [(ch, chw)] }
            | .error e =>
              -- line 145: the tag is written without its trailing bang
              { st := st1, events := [⟨"!ERR", ts, cid, .err e⟩],
                blocks := false, calls := [(ch, chw)] }
          | _ =>
            { st := st1, events := [⟨"!ERR!", ts, cid, .str "invalid param format"⟩],
              blocks := false, calls := [] }
        else
          { st := st1, events := [⟨"!ERR!", ts, cid, .str ("invalid command " ++ cmd)⟩],
            blocks := false, calls := [] }
  | none =>
    -- lines 148-159: no token, go to the next channel; the index is
    -- advanced before the chset call, remaining is reset only after it
    let i2 := (st.i + 1) % st.chs.length
    let t := st.chs.getD i2 (0, "")
    match facade (toString t.1) t.2 with
    | .ok _ =>
      { st := { st with i := i2, remaining := 0 }, events := [],
        blocks := false, calls := [(toString t.1, t.2)] }
    | .error e =>
      { st := { st with i := i2 }, events := [⟨"!FAIL!", ts, -1, .err e⟩],
        blocks := false, calls := [(toString t.1, t.2)] }

/-- Reply sent on the connection from the RadioController to DySKT. -/
inductive SupMsg where
  | cmderr (role : String) (cid : Int) (p : Payload)
  | cmdack (role : String) (cid : Int) (p : Payload)
  | errmsg (role cat : String) (p : Payload)
deriving DecidableEq

/-- Event put on the internal communications queue to the RTO: vnic name,
    timestamp, tag, payload. -/
abbrev RTOEvent := String × Int × String × Payload

/-- Input consumed by one iteration of RadioController.run, lines 214-265:
    either a status event dequeued from the Tuner queue, or, when that
    queue raised Empty, the outcome of the raw socket recv. -/
inductive CtrlIn where
  | status (ev : Event)
  | frame (b : String)
  | stimeout
  | serror (e : String)
  | sexc (e : String)
deriving DecidableEq

/-- Result of one iteration of the RadioController.run loop: new cached
    tuner state, events put to the RTO queue, messages sent to DySKT, and
    whether the loop breaks. -/
structure CtrlOut where
  stuner : Option Nat
  rto : List RTOEvent
  sup : List SupMsg
  brk : Bool
deriving DecidableEq

/-- Initial value of the cached tuner state of the RadioController,
    line 192 of the initializer. -/
def initStuner : Option Nat := none

/-- One iteration of the RadioController.run loop body, lines 214-265;
    now is the value of time.time read inside the iteration. -/
def ctrlStep (role vnic : String) (now : Int) (stuner : Option Nat)
    (inp : CtrlIn) : CtrlOut :=
  match inp with
  | .frame b =>
    -- lines 225-227: drop the frame when the cached state is PAUSE
    if stuner = some TUNE_PAUSE then ⟨stuner, [], [], false⟩
    else ⟨stuner, [(vnic, now, "!FRAME!", .str b)], [], false⟩
  | .stimeout => ⟨stuner, [], [], false⟩
  | .serror e =>
    ⟨stuner, [(vnic, now, "!FAIL!", .err e)], [.errmsg role "Socket" (.err e)], true⟩
  | .sexc e =>
    ⟨stuner, [(vnic, now, "!FAIL!", .err e)], [.errmsg role "Unknown" (.err e)], true⟩
  | .status ev =>
    -- lines 240-265: dispatch on the literal tag of the event
    if ev.tag = "!ERR!" then
      ⟨stuner, [], if ev.cid > -1 then [.cmderr role ev.cid ev.payload] else [], false⟩
    else if ev.tag = "!FAIL!" then
      ⟨stuner, [(vnic, ev.ts, "!FAIL!", ev.payload)], [], false⟩
    else if ev.tag = "!STATE!" then
      ⟨stuner, [], if ev.cid > -1 then [.cmdack role ev.cid ev.payload] else [], false⟩
    else if ev.tag = "!HOLD!" then
      ⟨some TUNE_HOLD, [(vnic, ev.ts, "!HOLD!", ev.payload)],
        if ev.cid > -1 then [.cmdack role ev.cid ev.payload] else [], false⟩
    else if ev.tag = "!SCAN!" then
      ⟨some TUNE_SCAN, [(vnic, now, "!SCAN!", ev.payload)],
        if ev.cid > -1 then [.cmdack role ev.cid ev.payload] else [], false⟩
    else if ev.tag = "!LISTEN" then
      ⟨some TUNE_LISTEN, [(vnic, now, "!LISTEN!", ev.payload)],
        if ev.cid > -1 then [.cmdack role ev.cid ev.payload] else [], false⟩
    else if ev.tag = "!PAUSE!" then
      ⟨some TUNE_PAUSE, [(vnic, now, "!PAUSE!", .str " ")],
        if ev.cid > -1 then [.cmdack role ev.cid ev.payload] else [], false⟩
    else if ev.tag = "!STOP!" then
      ⟨some TUNE_STOP, [], [], true⟩
    else
      -- an unrecognized tag falls through every elif arm and is dropped
      ⟨stuner, [], [], false⟩

/-- Cached tuner state after a sequence of loop iterations, threading the
    cached state through ctrlStep; each entry carries role, vnic, the
    timestamp of the iteration and the iteration input. -/
def runStuner : Option Nat → List (String × String × Int × CtrlIn) → Option Nat
  | stuner, [] => stuner
  | stuner, (role, vnic, now, inp) :: rest =>
    runStuner (ctrlStep role vnic now stuner inp).stuner rest

/-- Whether an iteration input is a dequeued status event. -/
def isStatus : CtrlIn → Bool
  | .status _ => true
  | _ => false

/-- Numeric suffixes collected from the wireless interface list when the
    virtual interface name is computed, lines 376-382: split each name at
    the substring dyskt and keep the integer value of the piece after the
    first occurrence when it parses. -/
def suffixList (wifaces : List String) : List Int :=
  wifaces.foldl (fun ns w =>
    let cs := pySplit "dyskt" w
    if cs.length > 1 then
      match pyToInt (cs.getD 1 "") with
      | some m => ns ++ [m]
      | none => ns
    else ns) []

/-- Virtual monitor interface name chosen by RadioController setup,
    lines 375-384: zero when no collected suffix is zero, otherwise one
    more than the maximum collected suffix. -/
def vnicName (wifaces : List String) : String :=
  let ns := suffixList wifaces
  let n : Int := if (0 : Int) ∈ ns then pyMax ns + 1 else 0
  "dyskt" ++ toString n

/-- Modelled from the claim wording, for comparison only: the smallest
    non-negative integer that is not a collected suffix. -/
def specSmallestFree (ns : List Int) : Int :=
  Int.ofNat (((List.range (ns.length + 1)).find? (fun k => !(ns.contains (Int.ofNat k)))).getD 0)

/-- Modelled from the claim wording, for comparison only: the virtual name
    built from the smallest free suffix. -/
def specVnicName (wifaces : List String) : String :=
  "dyskt" ++ toString (specSmallestFree (suffixList wifaces))

/-- Outcome of probing one channel tuple with iw.chset during setup. -/
inductive ProbeRes where
  | ok
  | invalidArg
  | fatal (e : String)
deriving DecidableEq

/-- Whether a probe outcome is an error other than invalid argument. -/
def isFatal : ProbeRes → Bool
  | .fatal _ => true
  | _ => false

/-- Failure of the scan pattern compilation of setup. -/
inductive ScanErr where
  | emptyPattern
  | fatal (e : String)
deriving DecidableEq

/-- Initial filter of the configured scan list, line 433: keep tuples whose
    channel string is among the supported channels and which are not in the
    pass list. -/
def filterScan (chs : List String) (passl scan : List ChanSpec) : List ChanSpec :=
  scan.filter (fun t => chs.contains (toString t.1) && !(passl.contains t))

/-- The probing while loop of lines 437-453: walk the scan list with an
    index, advancing on success, deleting the entry in place on an
    invalid-argument response, re-raising any other facade error, and
    stopping on IndexError when the index runs past the end. -/
def probeLoop (resp : ChanSpec → ProbeRes) (i : Nat) (scan : List ChanSpec) :
    Except String (List ChanSpec) :=
  if hemp : scan.isEmpty then .ok scan
  else if h : i < scan.length then
    match resp (scan.get ⟨i, h⟩) with
    | .ok => probeLoop resp (i + 1) scan
    | .invalidArg => probeLoop resp i (scan.eraseIdx i)
    | .fatal e => .error e
  else .ok scan
termination_by scan.length - i
decreasing_by
  · omega
  · simp [List.length_eraseIdx, h]
    omega

/-- Structural companion of probeLoop, used in the proofs. -/
def probeAux (resp : ChanSpec → ProbeRes) : List ChanSpec → Except String (List ChanSpec)
  | [] => .ok []
  | t :: rest =>
    match resp t with
    | .ok => (probeAux resp rest).map (fun r => t :: r)
    | .invalidArg => probeAux resp rest
    | .fatal e => .error e

/-- Scan pattern compilation in RadioController setup, lines 432-454:
    filter, probe every entry, and raise on an empty survivor list. -/
def compileScan (chs : List String) (passl scan : List ChanSpec)
    (resp : ChanSpec → ProbeRes) : Except ScanErr (List ChanSpec) :=
  match probeLoop resp 0 (filterScan chs passl scan) with
  | .error e => .error (.fatal e)
  | .ok s => if s.isEmpty then .error .emptyPattern else .ok s

/-- Start-channel selection of lines 466-470, together with the arguments
    of the chset call of line 470. The none case models a configuration
    dict without the scan_start key: the access raises KeyError, which only
    the blanket handler of line 511 catches, so setup fails with a
    RuntimeError of category Unknown. -/
def startChIdx (scan_start : Option ChanSpec) (scan : List ChanSpec) :
    Except String (Nat × String × String) :=
  match scan_start with
  | none => .error "Unknown"
  | some v =>
    let j := (pyIndex v scan).getD 0
    let t := scan.getD j (0, "")
    .ok (j, toString t.1, t.2)

/-- A NIC facade on which every chset call succeeds. -/
def facadeOk : String → String → Except String Unit := fun _ _ => .ok ()

/-- A NIC facade on which every chset call fails. -/
def facadeFail : String → String → Except String Unit := fun _ _ => .error "chset failed"

/-- Probe responses of scenario five of the specification: invalid argument
    on channel fourteen and on the pair of channel six with width HT40PLUS,
    success otherwise. -/
def resp5 : ChanSpec → ProbeRes := fun t =>
  if t.1 = 14 ∨ t = (6, "HT40PLUS") then .invalidArg else .ok

/- Claim theorems. -/

/-- Claim C1, counterexample: on the literal STOP token the Tuner puts a
    status whose payload is a single space, not the empty string, and its
    stop flag stays clear, so the run loop is not exited at that point. -/
theorem c1_counterexample :
    (tunerStep facadeOk ⟨[(1, "NOHT")], [1], 0, TUNE_SCAN, 0, false⟩ 5 0
      (some "!STOP!")).events = [⟨"!STOP!", 5, -1, Payload.str " "⟩] ∧
    Payload.str " " ≠ Payload.str "" ∧
    (tunerStep facadeOk ⟨[(1, "NOHT")], [1], 0, TUNE_SCAN, 0, false⟩ 5 0
      (some "!STOP!")).st.done = false := by
  decide

/-- Claim C1 as amended: on the literal STOP token the Tuner emits exactly
    one STOP status whose payload is the single-space string, performs no
    chset call, does not block, and leaves its state, including the stop
    flag, unchanged; the loop therefore continues until shutdown sets the
    stop flag from outside. -/
theorem c1_stop_token (facade : String → String → Except String Unit)
    (st : TunerState) (ts elapsed : Int) :
    tunerStep facade st ts elapsed (some "!STOP!") =
      { st := st, events := [⟨"!STOP!", ts, -1, .str " "⟩],
        blocks := false, calls := [] } := rfl

/-- Claim C2: in an iteration that read a frame, the frame is forwarded to
    the RTO as a FRAME event exactly when the cached tuner state is not
    PAUSE, and nothing else happens in that iteration. -/
theorem c2_pause_gates_frames (role vnic : String) (now : Int)
    (stuner : Option Nat) (b : String) :
    (ctrlStep role vnic now stuner (.frame b)).rto =
      (if stuner = some TUNE_PAUSE then [] else [(vnic, now, "!FRAME!", .str b)]) ∧
    (ctrlStep role vnic now stuner (.frame b)).sup = [] ∧
    (ctrlStep role vnic now stuner (.frame b)).brk = false ∧
    (ctrlStep role vnic now stuner (.frame b)).stuner = stuner := by
  by_cases h : stuner = some TUNE_PAUSE <;> simp [ctrlStep, h]

/-- Claim C4, code bug: a listen token whose chset call fails makes the
    Tuner put an event tagged with ERR missing its trailing bang; the
    RadioController dispatch recognizes only the fully bracketed ERR tag,
    so the event falls through every arm and no cmderr reply reaches the
    Supervisor even though the command id is non-negative. -/
theorem c4_listen_err_dropped :
    (tunerStep facadeFail ⟨[(1, "NOHT")], [1], 0, TUNE_SCAN, 0, false⟩ 5 0
      (some "listen:3:11-HT20")).events = [⟨"!ERR", 5, 3, Payload.err "chset failed"⟩] ∧
    ("!ERR" : String) ≠ "!ERR!" ∧
    (ctrlStep "recon" "dyskt0" 7 (some TUNE_SCAN)
      (.status ⟨"!ERR", 5, 3, Payload.err "chset failed"⟩)) =
      ⟨some TUNE_SCAN, [], [], false⟩ ∧
    ((3 : Int) > -1) := by
  decide

/-- Claim C9, counterexample: the initial-pause emission carries the
    single-space payload, not the empty string. -/
theorem c9_counterexample :
    (tunerInit ⟨[(1, "NOHT")], [1], 0, TUNE_PAUSE, 0, false⟩ 3).1 =
      [⟨"!PAUSE!", 3, -1, Payload.str " "⟩] ∧
    Payload.str " " ≠ Payload.str "" := by
  decide

/-- Claim C9 as amended: every PAUSE emission carries the single-space
    string as payload: the initial-pause emission, the pause-command
    emission, and the PAUSE event the RadioController forwards to the RTO. -/
theorem c9_pause_payload :
    (∀ (st : TunerState) (ts : Int), st.state = TUNE_PAUSE →
      tunerInit st ts = ([⟨"!PAUSE!", ts, -1, .str " "⟩], true)) ∧
    (∀ (facade : String → String → Except String Unit) (st : TunerState)
        (ts elapsed : Int) (tkn : String) (cid : Int) (ps : String),
      splitToken tkn = some ("pause", cid, ps) → st.state ≠ TUNE_PAUSE →
      (tunerStep facade st ts elapsed (some tkn)).events =
        [⟨"!PAUSE!", ts, cid, .str " "⟩] ∧
      (tunerStep facade st ts elapsed (some tkn)).st.state = TUNE_PAUSE) ∧
    (∀ (role vnic : String) (now : Int) (stuner : Option Nat) (ev : Event),
      ev.tag = "!PAUSE!" →
      (ctrlStep role vnic now stuner (.status ev)).rto =
        [(vnic, now, "!PAUSE!", .str " ")]) := by
  refine ⟨?_, ?_, ?_⟩
  · intro st ts h
    simp [tunerInit, h]
  · intro facade st ts elapsed tkn cid ps htk hst
    have hts : tkn ≠ "!STOP!" := by
      intro h
      rw [h] at htk
      have hn : splitToken "!STOP!" = none := by decide
      rw [hn] at htk
      cases htk
    simp [tunerStep, hts, htk, hst]
  · intro role vnic now stuner ev htag
    simp [ctrlStep, htag]

/-- Claim C9, witness for the amended theorem. -/
theorem c9_pause_payload_witness :
    splitToken "pause:4:" = some ("pause", 4, "") ∧
    (⟨[(1, "NOHT")], [1], 0, TUNE_SCAN, 0, false⟩ : TunerState).state ≠ TUNE_PAUSE ∧
    (tunerStep facadeOk ⟨[(1, "NOHT")], [1], 0, TUNE_SCAN, 0, false⟩ 9 0
      (some "pause:4:")).events = [⟨"!PAUSE!", 9, 4, Payload.str " "⟩] := by
  refine ⟨by decide, by decide, ?_⟩
  exact (c9_pause_payload.2.1 facadeOk ⟨[(1, "NOHT")], [1], 0, TUNE_SCAN, 0, false⟩
    9 0 "pause:4:" 4 "" (by decide) (by decide)).1

/-- Claim C10: the cached tuner state starts as none, which differs from
    all five tuner states; no iteration that does not dequeue a status
    event changes it, so after any run of such iterations it is still
    none; and a frame read with the cached state still at its initial
    value is forwarded to the RTO, regardless of how the Tuner was
    configured. -/
theorem c10_cached_state_init :
    initStuner = none ∧
    (∀ s ∈ [TUNE_SCAN, TUNE_HOLD, TUNE_PAUSE, TUNE_LISTEN, TUNE_STOP],
      initStuner ≠ some s) ∧
    (∀ (role vnic : String) (now : Int) (stuner : Option Nat) (inp : CtrlIn),
      isStatus inp = false → (ctrlStep role vnic now stuner inp).stuner = stuner) ∧
    (∀ steps : List (String × String × Int × CtrlIn),
      (∀ x ∈ steps, isStatus x.2.2.2 = false) →
      runStuner initStuner steps = initStuner) ∧
    (∀ (role vnic : String) (now : Int) (b : String),
      (ctrlStep role vnic now initStuner (.frame b)).rto =
        [(vnic, now, "!FRAME!", .str b)]) := by
  have hstep : ∀ (role vnic : String) (now : Int) (stuner : Option Nat) (inp : CtrlIn),
      isStatus inp = false → (ctrlStep role vnic now stuner inp).stuner = stuner := by
    intro role vnic now stuner inp h
    cases inp with
    | status ev => simp [isStatus] at h
    | frame b => by_cases hp : stuner = some TUNE_PAUSE <;> simp [ctrlStep, hp]
    | stimeout => rfl
    | serror e => rfl
    | sexc e => rfl
  have hrun : ∀ (steps : List (String × String × Int × CtrlIn)) (stuner : Option Nat),
      (∀ x ∈ steps, isStatus x.2.2.2 = false) → runStuner stuner steps = stuner := by
    intro steps
    induction steps with
    | nil => intro stuner _; rfl
    | cons x rest ih =>
      intro stuner h
      obtain ⟨role, vnic, now, inp⟩ := x
      have h1 : isStatus inp = false := h _ (List.mem_cons_self _ _)
      have h2 : ∀ y ∈ rest, isStatus y.2.2.2 = false :=
        fun y hy => h y (List.mem_cons_of_mem _ hy)
      simp only [runStuner]
      rw [hstep _ _ _ _ _ h1]
      exact ih stuner h2
  exact ⟨rfl, by decide, hstep, fun steps h => hrun steps initStuner h,
    fun role vnic now b => by simp [ctrlStep, initStuner]⟩

/-- Claim C10, witness. -/
theorem c10_cached_state_init_witness :
    isStatus (CtrlIn.frame "bytes") = false ∧
    runStuner initStuner
      [("recon", "dyskt0", 0, CtrlIn.frame "bytes"),
       ("recon", "dyskt0", 1, CtrlIn.stimeout)] = initStuner ∧
    (ctrlStep "recon" "dyskt0" 2 initStuner (CtrlIn.frame "bytes")).rto =
      [("dyskt0", 2, "!FRAME!", Payload.str "bytes")] := by
  exact ⟨by decide, c10_cached_state_init.2.2.2.1 _ (by decide),
    c10_cached_state_init.2.2.2.2 "recon" "dyskt0" 2 "bytes"⟩

/-- Claim C8: a scan, hold or pause command received while the Tuner is
    already in the state of the same name yields exactly one ERR status
    with the redundant-command payload, leaves the control state, index and
    stop flag unchanged, issues no chset call, and does not block on the
    control connection. -/
theorem c8_redundant_command (facade : String → String → Except String Unit)
    (st : TunerState) (ts elapsed : Int) (tkn : String) (cid : Int) (ps : String)
    (hst : st.state = TUNE_SCAN ∨ st.state = TUNE_HOLD ∨ st.state = TUNE_PAUSE)
    (htk : splitToken tkn = some (TUNE_DESC.getD st.state "", cid, ps)) :
    (tunerStep facade st ts elapsed (some tkn)).events =
      [⟨"!ERR!", ts, cid, .str "redundant command"⟩] ∧
    (tunerStep facade st ts elapsed (some tkn)).st.state = st.state ∧
    (tunerStep facade st ts elapsed (some tkn)).st.i = st.i ∧
    (tunerStep facade st ts elapsed (some tkn)).st.done = st.done ∧
    (tunerStep facade st ts elapsed (some tkn)).blocks = false ∧
    (tunerStep facade st ts elapsed (some tkn)).calls = [] := by
  have hts : tkn ≠ "!STOP!" := by
    intro h
    rw [h] at htk
    have hn : splitToken "!STOP!" = none := by decide
    rw [hn] at htk
    cases htk
  rcases hst with h | h | h
  · have htk2 : splitToken tkn = some ("scan", cid, ps) := by rw [h] at htk; exact htk
    simp [tunerStep, hts, htk2, h]
  · have htk2 : splitToken tkn = some ("hold", cid, ps) := by rw [h] at htk; exact htk
    simp [tunerStep, hts, htk2, h]
  · have htk2 : splitToken tkn = some ("pause", cid, ps) := by rw [h] at htk; exact htk
    simp [tunerStep, hts, htk2, h]

/-- Claim C8, witness. -/
theorem c8_redundant_command_witness :
    ((⟨[(1, "NOHT")], [1], 0, TUNE_SCAN, 0, false⟩ : TunerState).state = TUNE_SCAN ∨
      (⟨[(1, "NOHT")], [1], 0, TUNE_SCAN, 0, false⟩ : TunerState).state = TUNE_HOLD ∨
      (⟨[(1, "NOHT")], [1], 0, TUNE_SCAN, 0, false⟩ : TunerState).state = TUNE_PAUSE) ∧
    splitToken "scan:5:x" =
      some (TUNE_DESC.getD (⟨[(1, "NOHT")], [1], 0, TUNE_SCAN, 0, false⟩ : TunerState).state "", 5, "x") ∧
    (tunerStep facadeOk ⟨[(1, "NOHT")], [1], 0, TUNE_SCAN, 0, false⟩ 7 0
      (some "scan:5:x")).events = [⟨"!ERR!", 7, 5, Payload.str "redundant command"⟩] := by
  refine ⟨Or.inl rfl, by decide, ?_⟩
  exact (c8_redundant_command facadeOk ⟨[(1, "NOHT")], [1], 0, TUNE_SCAN, 0, false⟩
    7 0 "scan:5:x" 5 "x" (Or.inl rfl) (by decide)).1

/-- Claim C6: on a dwell timeout the index advances to the successor modulo
    the scan length, chset is invoked on exactly the entry at the new index
    (so it is invoked even for a length-one scan list, where the index
    stays at zero), the body neither blocks nor touches the stop flag or
    control state; on success the remaining counter is reset to zero and
    nothing is emitted, while a facade error emits one FAIL status with the
    error and leaves the remaining counter alone. -/
theorem c6_timeout_hop (facade : String → String → Except String Unit)
    (st : TunerState) (ts elapsed : Int) (hne : st.chs ≠ []) :
    (tunerStep facade st ts elapsed none).st.i = (st.i + 1) % st.chs.length ∧
    (tunerStep facade st ts elapsed none).calls =
      [(toString (st.chs.getD ((st.i + 1) % st.chs.length) (0, "")).1,
        (st.chs.getD ((st.i + 1) % st.chs.length) (0, "")).2)] ∧
    (tunerStep facade st ts elapsed none).blocks = false ∧
    (tunerStep facade st ts elapsed none).st.done = st.done ∧
    (tunerStep facade st ts elapsed none).st.state = st.state ∧
    (facade (toString (st.chs.getD ((st.i + 1) % st.chs.length) (0, "")).1)
        (st.chs.getD ((st.i + 1) % st.chs.length) (0, "")).2 = .ok () →
      (tunerStep facade st ts elapsed none).st.remaining = 0 ∧
      (tunerStep facade st ts elapsed none).events = []) ∧
    (∀ e, facade (toString (st.chs.getD ((st.i + 1) % st.chs.length) (0, "")).1)
        (st.chs.getD ((st.i + 1) % st.chs.length) (0, "")).2 = .error e →
      (tunerStep facade st ts elapsed none).events = [⟨"!FAIL!", ts, -1, .err e⟩] ∧
      (tunerStep facade st ts elapsed none).st.remaining = st.remaining) := by
  cases hf : facade (toString (st.chs.getD ((st.i + 1) % st.chs.length) (0, "")).1)
      (st.chs.getD ((st.i + 1) % st.chs.length) (0, "")).2 with
  | ok u =>
    cases u
    simp only [tunerStep]
    rw [hf]
    simp [hf]
  | error e =>
    simp only [tunerStep]
    rw [hf]
    simp [hf]

/-- Claim C6, witness on a scan list of length one. -/
theorem c6_timeout_hop_witness :
    (([(6, "NOHT")] : List ChanSpec) ≠ []) ∧
    (tunerStep facadeOk ⟨[(6, "NOHT")], [2], 0, TUNE_SCAN, 5, false⟩ 11 0 none).st.i = 0 ∧
    (tunerStep facadeOk ⟨[(6, "NOHT")], [2], 0, TUNE_SCAN, 5, false⟩ 11 0 none).calls =
      [("6", "NOHT")] ∧
    (tunerStep facadeOk ⟨[(6, "NOHT")], [2], 0, TUNE_SCAN, 5, false⟩ 11 0 none).st.remaining = 0 := by
  have h := c6_timeout_hop facadeOk ⟨[(6, "NOHT")], [2], 0, TUNE_SCAN, 5, false⟩ 11 0 (by decide)
  refine ⟨by decide, ?_, ?_, ?_⟩
  · exact h.1.trans (by decide)
  · exact h.2.1.trans (by decide)
  · exact (h.2.2.2.2.2.1 (by decide)).1

/- Helper lemmas on the folded maximum and on pyIndex. -/

theorem foldl_max_le_init (l : List Int) : ∀ a : Int, a ≤ l.foldl max a := by
  induction l with
  | nil => intro a; exact le_refl a
  | cons b t ih =>
    intro a
    rw [List.foldl_cons]
    exact le_trans (le_max_left a b) (ih (max a b))

theorem foldl_max_le_mem (l : List Int) : ∀ (a m : Int), m ∈ l → m ≤ l.foldl max a := by
  induction l with
  | nil => intro a m hm; simp at hm
  | cons b t ih =>
    intro a m hm
    rw [List.foldl_cons]
    rcases List.mem_cons.mp hm with h | h
    · subst h; exact le_trans (le_max_right a m) (foldl_max_le_init t (max a m))
    · exact ih (max a b) m h

theorem foldl_max_mem_or (l : List Int) : ∀ a : Int, l.foldl max a = a ∨ l.foldl max a ∈ l := by
  induction l with
  | nil => intro a; left; rfl
  | cons b t ih =>
    intro a
    rw [List.foldl_cons]
    rcases ih (max a b) with h | h
    · rcases max_choice a b with hm | hm
      · left; rw [h, hm]
      · right; rw [h, hm]; exact List.mem_cons_self b t
    · right; exact List.mem_cons_of_mem b h

theorem pyMax_mem (l : List Int) (hne : l ≠ []) : pyMax l ∈ l := by
  cases l with
  | nil => exact absurd rfl hne
  | cons b t =>
    unfold pyMax
    rcases foldl_max_mem_or (b :: t) (List.headD (b :: t) 0) with h | h
    · rw [h]; exact List.mem_cons_self b t
    · exact h

theorem pyMax_ge (l : List Int) (m : Int) (hm : m ∈ l) : m ≤ pyMax l :=
  foldl_max_le_mem l _ m hm

theorem pyIndex_none_iff (v : ChanSpec) : ∀ l : List ChanSpec, pyIndex v l = none ↔ v ∉ l := by
  intro l
  induction l with
  | nil => simp [pyIndex]
  | cons t rest ih =>
    by_cases h : t = v
    · simp [pyIndex, h]
    · simp [pyIndex, h, ih]
      exact fun _ => fun he => h he.symm

theorem pyIndex_spec (v : ChanSpec) :
    ∀ (l : List ChanSpec) (j : Nat), pyIndex v l = some j →
      j < l.length ∧ l.getD j (0, "") = v ∧ ∀ k, k < j → l.getD k (0, "") ≠ v := by
  intro l
  induction l with
  | nil => intro j h; simp [pyIndex] at h
  | cons t rest ih =>
    intro j h
    by_cases ht : t = v
    · simp [pyIndex, ht] at h
      subst h
      exact ⟨by simp, by simp [ht], fun k hk => absurd hk (by omega)⟩
    · simp [pyIndex, ht] at h
      obtain ⟨j2, hj2, hj⟩ := h
      subst hj
      obtain ⟨h1, h2, h3⟩ := ih j2 hj2
      refine ⟨by simp; omega, by simpa using h2, ?_⟩
      intro k hk
      cases k with
      | zero => simpa using ht
      | succ k2 => simpa using h3 k2 (by omega)

theorem pyIndex_mem (v : ChanSpec) (l : List ChanSpec) (h : v ∈ l) :
    ∃ j, pyIndex v l = some j := by
  cases hp : pyIndex v l with
  | none => exact absurd h ((pyIndex_none_iff v l).mp hp)
  | some j => exact ⟨j, rfl⟩

/-- Claim C3, counterexample: with interfaces dyskt0 and dyskt2 present the
    code picks dyskt3, not the smallest free suffix dyskt1 demanded by the
    claim. -/
theorem c3_counterexample :
    vnicName ["dyskt0", "dyskt2"] = "dyskt3" ∧
    specVnicName ["dyskt0", "dyskt2"] = "dyskt1" ∧
    ("dyskt3" : String) ≠ "dyskt1" := by
  decide

/-- Claim C3 as amended: the chosen suffix is zero when no collected suffix
    is zero; otherwise it is one more than the maximum collected suffix, a
    value strictly greater than every collected suffix whose predecessor is
    itself a collected suffix (so unused intermediate values may be
    skipped, as the counterexample shows). -/
theorem c3_vnic_name (wifaces : List String) :
    (¬ (0 : Int) ∈ suffixList wifaces → vnicName wifaces = "dyskt0") ∧
    ((0 : Int) ∈ suffixList wifaces →
      vnicName wifaces = "dyskt" ++ toString (pyMax (suffixList wifaces) + 1) ∧
      (∀ m ∈ suffixList wifaces, m < pyMax (suffixList wifaces) + 1) ∧
      pyMax (suffixList wifaces) ∈ suffixList wifaces) := by
  constructor
  · intro h
    simp only [vnicName, if_neg h]
    decide
  · intro h
    have hne : suffixList wifaces ≠ [] := by
      intro hnil; rw [hnil] at h; simp at h
    refine ⟨by simp only [vnicName, if_pos h], fun m hm => ?_, pyMax_mem _ hne⟩
    have := pyMax_ge _ m hm
    omega

/-- Claim C3, witness for the amended theorem. -/
theorem c3_vnic_name_witness :
    ((0 : Int) ∈ suffixList ["dyskt0", "dyskt2"]) ∧
    vnicName ["dyskt0", "dyskt2"] =
      "dyskt" ++ toString (pyMax (suffixList ["dyskt0", "dyskt2"]) + 1) ∧
    pyMax (suffixList ["dyskt0", "dyskt2"]) ∈ suffixList ["dyskt0", "dyskt2"] := by
  have h := (c3_vnic_name ["dyskt0", "dyskt2"]).2 (by decide)
  exact ⟨by decide, h.1, h.2.2⟩

/-- Claim C7, counterexample: a configuration without the scan_start key
    makes setup fail with the blanket RuntimeError instead of starting at
    index zero. -/
theorem c7_counterexample :
    startChIdx none [(1, "NOHT"), (6, "NOHT")] = .error "Unknown" := rfl

/-- Claim C7 as amended: when the scan_start key is present, the starting
    index is the first position of its value in the filtered pattern, or
    zero when the value does not occur there, and the channel at the chosen
    index is set; when the key is absent the dict access raises KeyError,
    only the blanket handler catches it, and setup fails. -/
theorem c7_start_index (v : ChanSpec) (scan : List ChanSpec) (hne : scan ≠ []) :
    startChIdx none scan = .error "Unknown" ∧
    (v ∉ scan → startChIdx (some v) scan =
      .ok (0, toString (scan.getD 0 (0, "")).1, (scan.getD 0 (0, "")).2)) ∧
    (v ∈ scan → ∃ j, pyIndex v scan = some j ∧ j < scan.length ∧
      scan.getD j (0, "") = v ∧ (∀ k, k < j → scan.getD k (0, "") ≠ v) ∧
      startChIdx (some v) scan = .ok (j, toString v.1, v.2)) := by
  refine ⟨rfl, ?_, ?_⟩
  · intro h
    have hn : pyIndex v scan = none := (pyIndex_none_iff v scan).mpr h
    simp [startChIdx, hn]
  · intro h
    obtain ⟨j, hj⟩ := pyIndex_mem v scan h
    obtain ⟨h1, h2, h3⟩ := pyIndex_spec v scan j hj
    refine ⟨j, hj, h1, h2, h3, ?_⟩
    have h4 : scan[j]?.getD (0, "") = v := by
      rw [List.getD_eq_getElem?_getD] at h2
      exact h2
    simp [startChIdx, hj, h4]

/-- Claim C7, witness for the amended theorem. -/
theorem c7_start_index_witness :
    (([(1, "NOHT"), (6, "NOHT")] : List ChanSpec) ≠ []) ∧
    ((2, "X") ∉ ([(1, "NOHT"), (6, "NOHT")] : List ChanSpec)) ∧
    startChIdx (some (2, "X")) [(1, "NOHT"), (6, "NOHT")] = .ok (0, "1", "NOHT") := by
  refine ⟨by decide, by decide, ?_⟩
  have h := (c7_start_index (2, "X") [(1, "NOHT"), (6, "NOHT")] (by decide)).2.1 (by decide)
  exact h.trans (by decide)

theorem probeLoop_eq_probeAux_aux (resp : ChanSpec → ProbeRes) :
    ∀ (n i : Nat) (scan : List ChanSpec), scan.length - i ≤ n →
      probeLoop resp i scan =
        Except.map (fun r => scan.take i ++ r) (probeAux resp (scan.drop i)) := by
  intro n
  induction n with
  | zero =>
    intro i scan h
    have hge : scan.length ≤ i := by omega
    by_cases hemp : scan.isEmpty
    · have hnil : scan = [] := List.isEmpty_iff.mp hemp
      subst hnil
      rw [probeLoop.eq_def]
      simp [probeAux, Except.map]
    · rw [probeLoop.eq_def, dif_neg hemp, dif_neg (show ¬ i < scan.length by omega)]
      rw [List.drop_eq_nil_of_le hge]
      simp [probeAux, Except.map, List.take_of_length_le hge]
  | succ n ih =>
    intro i scan h
    by_cases hemp : scan.isEmpty
    · have hnil : scan = [] := List.isEmpty_iff.mp hemp
      subst hnil
      rw [probeLoop.eq_def]
      simp [probeAux, Except.map]
    · by_cases hlt : i < scan.length
      · rw [probeLoop.eq_def, dif_neg hemp, dif_pos hlt]
        have hdrop : scan.drop i = scan.get ⟨i, hlt⟩ :: scan.drop (i + 1) :=
          List.drop_eq_getElem_cons hlt
        rw [hdrop]
        cases hresp : resp (scan.get ⟨i, hlt⟩) with
        | ok =>
          rw [ih (i + 1) scan (by omega)]
          simp only [probeAux, hresp]
          cases hpa : probeAux resp (scan.drop (i + 1)) with
          | error e => simp [Except.map]
          | ok r =>
            simp only [Except.map]
            have hts : List.take (i + 1) scan = List.take i scan ++ [scan.get ⟨i, hlt⟩] := by
              rw [List.take_succ, List.getElem?_eq_getElem hlt]
              rfl
            rw [hts, List.append_assoc]
            rfl
        | invalidArg =>
          rw [ih i (scan.eraseIdx i) (by rw [List.length_eraseIdx]; simp [hlt]; omega)]
          have he : scan.eraseIdx i = scan.take i ++ scan.drop (i + 1) :=
            List.eraseIdx_eq_take_drop_succ scan i
          have ht : (scan.eraseIdx i).take i = scan.take i := by
            rw [he]; exact List.take_left' (by rw [List.length_take]; omega)
          have hd : (scan.eraseIdx i).drop i = scan.drop (i + 1) := by
            rw [he]; exact List.drop_left' (by rw [List.length_take]; omega)
          rw [ht, hd]
          simp only [probeAux, hresp]
        | fatal e =>
          simp only [probeAux, hresp]
          simp [Except.map]
      · have hge : scan.length ≤ i := by omega
        rw [probeLoop.eq_def, dif_neg hemp, dif_neg hlt]
        rw [List.drop_eq_nil_of_le hge]
        simp [probeAux, Except.map, List.take_of_length_le hge]

theorem probeLoop_eq_probeAux (resp : ChanSpec → ProbeRes) (scan : List ChanSpec) :
    probeLoop resp 0 scan = probeAux resp scan := by
  have h := probeLoop_eq_probeAux_aux resp scan.length 0 scan (by omega)
  simp only [List.take_zero, List.drop_zero, List.nil_append] at h
  rw [h]
  cases probeAux resp scan <;> rfl

theorem probeAux_no_fatal (resp : ChanSpec → ProbeRes) :
    ∀ l : List ChanSpec, (∀ t ∈ l, isFatal (resp t) = false) →
      probeAux resp l = .ok (l.filter (fun t => resp t == ProbeRes.ok)) := by
  intro l
  induction l with
  | nil => intro _; rfl
  | cons t rest ih =>
    intro h
    have ht := h t (List.mem_cons_self t rest)
    have hrest : ∀ u ∈ rest, isFatal (resp u) = false :=
      fun u hu => h u (List.mem_cons_of_mem t hu)
    cases hresp : resp t with
    | ok =>
      have hc : (resp t == ProbeRes.ok) = true := by rw [hresp]; rfl
      simp only [probeAux, hresp, ih hrest, List.filter_cons, hc, if_true]
      rfl
    | invalidArg =>
      have hc : (resp t == ProbeRes.ok) = false := by rw [hresp]; rfl
      simp only [probeAux, hresp, ih hrest, List.filter_cons, hc, if_false]
      rfl
    | fatal e => rw [hresp] at ht; simp [isFatal] at ht

theorem probeAux_has_fatal (resp : ChanSpec → ProbeRes) :
    ∀ l : List ChanSpec, (∃ t ∈ l, isFatal (resp t) = true) →
      ∃ e, probeAux resp l = .error e := by
  intro l
  induction l with
  | nil => intro h; simp at h
  | cons t rest ih =>
    intro h
    cases hresp : resp t with
    | fatal e => exact ⟨e, by simp [probeAux, hresp]⟩
    | ok =>
      obtain ⟨u, hu, hf⟩ := h
      rcases List.mem_cons.mp hu with rfl | hu2
      · rw [hresp] at hf; simp [isFatal] at hf
      · obtain ⟨e, he⟩ := ih ⟨u, hu2, hf⟩
        exact ⟨e, by simp [probeAux, hresp, he, Except.map]⟩
    | invalidArg =>
      obtain ⟨u, hu, hf⟩ := h
      rcases List.mem_cons.mp hu with rfl | hu2
      · rw [hresp] at hf; simp [isFatal] at hf
      · obtain ⟨e, he⟩ := ih ⟨u, hu2, hf⟩
        exact ⟨e, by simp [probeAux, hresp, he]⟩

/-- Claim C5: when no filtered entry draws a fatal probe error, scan
    compilation returns exactly the filtered entries whose probe succeeds,
    in order, or the empty-pattern error when none survives; when some
    filtered entry draws a fatal probe error, compilation aborts with it. -/
theorem c5_scan_filter (chs : List String) (passl scan : List ChanSpec)
    (resp : ChanSpec → ProbeRes) :
    ((∀ t ∈ filterScan chs passl scan, isFatal (resp t) = false) →
      compileScan chs passl scan resp =
        (if (filterScan chs passl scan).filter (fun t => resp t == ProbeRes.ok) = []
         then .error .emptyPattern
         else .ok ((filterScan chs passl scan).filter (fun t => resp t == ProbeRes.ok)))) ∧
    ((∃ t ∈ filterScan chs passl scan, isFatal (resp t) = true) →
      ∃ e, compileScan chs passl scan resp = .error (.fatal e)) := by
  constructor
  · intro h
    unfold compileScan
    rw [probeLoop_eq_probeAux, probeAux_no_fatal resp _ h]
    show (if (List.filter (fun t => resp t == ProbeRes.ok) (filterScan chs passl scan)).isEmpty = true
          then (Except.error ScanErr.emptyPattern : Except ScanErr (List ChanSpec))
          else Except.ok (List.filter (fun t => resp t == ProbeRes.ok) (filterScan chs passl scan))) = _
    have hiff : (List.filter (fun t => resp t == ProbeRes.ok) (filterScan chs passl scan)).isEmpty = true ↔
        List.filter (fun t => resp t == ProbeRes.ok) (filterScan chs passl scan) = [] :=
      List.isEmpty_iff
    by_cases hx : List.filter (fun t => resp t == ProbeRes.ok) (filterScan chs passl scan) = []
    · rw [if_pos hx, if_pos (hiff.mpr hx)]
    · rw [if_neg hx, if_neg (fun hh => hx (hiff.mp hh))]
  · intro h
    obtain ⟨e, he⟩ := probeAux_has_fatal resp _ h
    refine ⟨e, ?_⟩
    unfold compileScan
    rw [probeLoop_eq_probeAux, he]

/-- Claim C5, witness on scenario five of the specification. -/
theorem c5_scan_filter_witness :
    (∀ t ∈ filterScan ["1", "6", "11"] []
        [(1, "NOHT"), (14, "NOHT"), (6, "HT40PLUS"), (11, "NOHT")],
      isFatal (resp5 t) = false) ∧
    compileScan ["1", "6", "11"] []
        [(1, "NOHT"), (14, "NOHT"), (6, "HT40PLUS"), (11, "NOHT")] resp5 =
      .ok [(1, "NOHT"), (11, "NOHT")] := by
  refine ⟨by decide, ?_⟩
  have h := (c5_scan_filter ["1", "6", "11"] []
    [(1, "NOHT"), (14, "NOHT"), (6, "HT40PLUS"), (11, "NOHT")] resp5).1 (by decide)
  exact h.trans (by decide)
